import Mathlib

/-!
Verification development for the Feishu streaming-delivery core:
the client cache (`client.ts`), the token cache and API-base resolution,
and the `FeishuStreamingSession` state machine (`dynamic-agent.ts`).

Modelling conventions:
* JavaScript `Map` objects are embedded as association lists that keep
  insertion order (`mapGet`/`mapSet`/`mapDelete`), matching `Map` iteration
  semantics.
* `Date.now()` timestamps are passed in explicitly as `Nat` arguments.
* Network effects are abstracted by oracle arguments: a `Bool` telling whether
  a given fetch succeeded, or an `Option` carrying the parsed success payload.
  The calls a session issues are collected in an explicit trace.
* The per-session promise chain (`this.queue = this.queue.then(...)`) runs
  queued units to completion in enqueue order; the embedding therefore runs
  each accepted update's queued unit in place, which is exactly the total
  order the chain enforces.
-/

namespace OpenClaw

/-! ### Domain resolution (client.ts `resolveDomain`, dynamic-agent.ts `resolveApiBase`) -/

/-- The SDK's built-in `Lark.Domain` enumeration. -/
inductive LarkDomain where
  | feishu
  | lark
deriving DecidableEq

/-- Result of `resolveDomain`: a built-in SDK domain or a custom base URL string. -/
inductive ResolvedDomain where
  | sdk (d : LarkDomain)
  | custom (url : String)
deriving DecidableEq

/-- `s.replace(/\/+$/, "")`: drop every trailing `/` character. -/
def stripTrailingSlashes (s : String) : String :=
  String.mk ((s.data.reverse.dropWhile (fun c => c = '/')).reverse)

/-- `s.startsWith(p)` on the character sequence. -/
def strStartsWith (s p : String) : Bool :=
  p.data.isPrefixOf s.data

/-- client.ts `resolveDomain`: `"lark"` and `"feishu"`/undefined (and the falsy
empty string) map to the SDK enumeration; anything else is passed through as a
custom private-deployment URL with trailing slashes stripped. -/
def resolveDomain (domain : Option String) : ResolvedDomain :=
  if domain = some "lark" then .sdk .lark
  else if domain = some "feishu" ∨ domain = none ∨ domain = some "" then .sdk .feishu
  else .custom (stripTrailingSlashes (domain.getD ""))

def FEISHU_API_BASE : String := "https://open.feishu.cn/open-apis"

def LARK_API_BASE : String := "https://open.larksuite.com/open-apis"

/-- dynamic-agent.ts `resolveApiBase`: `"lark"` maps to the Lark base; a truthy
value other than `"feishu"` that starts with `"http"` is used as a custom base;
everything else falls back to the Feishu base. -/
def resolveApiBase (domain : Option String) : String :=
  if domain = some "lark" then LARK_API_BASE
  else
    match domain with
    | some d =>
        if d ≠ "" ∧ d ≠ "feishu" ∧ strStartsWith d "http" then
          stripTrailingSlashes d ++ "/open-apis"
        else FEISHU_API_BASE
    | none => FEISHU_API_BASE

/-! ### Association-list model of a JavaScript `Map` -/

def mapGet {α : Type} (m : List (String × α)) (k : String) : Option α :=
  (m.find? (fun p => p.1 == k)).map Prod.snd

/-- `Map.prototype.set`: overwrite in place when the key exists (keeping its
insertion position), otherwise append. -/
def mapSet {α : Type} (m : List (String × α)) (k : String) (v : α) : List (String × α) :=
  if m.any (fun p => p.1 == k) then m.map (fun p => if p.1 == k then (k, v) else p)
  else m ++ [(k, v)]

def mapDelete {α : Type} (m : List (String × α)) (k : String) : List (String × α) :=
  m.filter (fun p => p.1 ≠ k)

/-! ### Client cache (client.ts) -/

def CLIENT_CACHE_MAX_SIZE : Nat := 50

structure ClientConfig where
  appId : String
  appSecret : String
  domain : Option String
deriving DecidableEq

/-- One cache slot; the opaque `Lark.Client` handle is modelled by a numeric id. -/
structure ClientEntry where
  client : Nat
  config : ClientConfig
  lastAccess : Nat
deriving DecidableEq

/-- The scan inside `evictOldestIfNeeded`: starting from `oldestKey = null`,
`oldestTime = Infinity`, keep the first entry (in iteration order) whose
`lastAccess` is strictly smaller than the best so far. -/
def findOldest (m : List (String × ClientEntry)) : Option String :=
  (m.foldl (fun acc p =>
    match acc with
    | none => some (p.1, p.2.lastAccess)
    | some (k, t) => if p.2.lastAccess < t then some (p.1, p.2.lastAccess) else some (k, t))
    none).map Prod.fst

/-- client.ts `evictOldestIfNeeded`. The final guard is JavaScript
`if (oldestKey)`, which is false both for `null` and for the empty string. -/
def evictOldestIfNeeded (m : List (String × ClientEntry)) : List (String × ClientEntry) :=
  if m.length < CLIENT_CACHE_MAX_SIZE then m
  else
    match findOldest m with
    | some k => if k = "" then m else mapDelete m k
    | none => m

structure ClientCacheState where
  entries : List (String × ClientEntry)
  nextId : Nat
deriving DecidableEq

structure FeishuClientCredentials where
  accountId : Option String
  appId : Option String
  appSecret : Option String
  domain : Option String
deriving DecidableEq

/-- JavaScript falsiness of an optional string (`undefined` or `""`). -/
def strFalsy : Option String → Bool
  | none => true
  | some s => s == ""

/-- The cache-check of `createFeishuClient`: a hit needs the `accountId` present
with exactly matching `appId`, `appSecret` and `domain`. -/
def cacheHit (st : ClientCacheState) (accountId : String) (cfg : ClientConfig) :
    Option ClientEntry :=
  match mapGet st.entries accountId with
  | some cached => if cached.config = cfg then some cached else none
  | none => none

/-- client.ts `createFeishuClient`. Returns the client handle id and the new
cache state, or a configuration error when `appId`/`appSecret` is falsy. -/
def createFeishuClient (st : ClientCacheState) (creds : FeishuClientCredentials) (now : Nat) :
    Except String (Nat × ClientCacheState) :=
  let accountId := creds.accountId.getD "default"
  if strFalsy creds.appId || strFalsy creds.appSecret then
    .error ("Feishu credentials not configured for account " ++ accountId)
  else
    let cfg : ClientConfig :=
      { appId := creds.appId.getD "", appSecret := creds.appSecret.getD "",
        domain := creds.domain }
    match cacheHit st accountId cfg with
    | some cached =>
        .ok (cached.client,
          { st with entries := mapSet st.entries accountId { cached with lastAccess := now } })
    | none =>
        let ev := evictOldestIfNeeded st.entries
        .ok (st.nextId,
          { entries := mapSet ev accountId { client := st.nextId, config := cfg, lastAccess := now },
            nextId := st.nextId + 1 })

def getClientCacheSize (st : ClientCacheState) : Nat :=
  st.entries.length

/-- Run a sequence of `createFeishuClient` calls (credentials with a timestamp),
threading the cache state; a thrown configuration error leaves the state as is. -/
def runCreates (st : ClientCacheState) : List (FeishuClientCredentials × Nat) → ClientCacheState
  | [] => st
  | (c, t) :: rest =>
    match createFeishuClient st c t with
    | .ok r => runCreates r.2 rest
    | .error _ => runCreates st rest

/-! ### Token cache (dynamic-agent.ts `getToken`, `cleanupTokenCache`) -/

structure TokenEntry where
  token : String
  expiresAt : Nat
deriving DecidableEq

/-- Module state of the token cache: the map plus `lastTokenCacheCleanup`. -/
structure TokenCacheState where
  cache : List (String × TokenEntry)
  lastCleanup : Nat
deriving DecidableEq

def TOKEN_CACHE_CLEANUP_INTERVAL_MS : Nat := 5 * 60 * 1000

/-- `cleanupTokenCache`: rate-limited to once per five minutes; removes entries
whose `expiresAt` is already in the past. -/
def cleanupTokenCache (st : TokenCacheState) (now : Nat) : TokenCacheState :=
  if now - st.lastCleanup < TOKEN_CACHE_CLEANUP_INTERVAL_MS then st
  else
    { cache := st.cache.filter (fun p => ¬ p.2.expiresAt < now), lastCleanup := now }

/-- The parsed token-exchange response; `none` models `code !== 0` or a missing
`tenant_access_token`, `some (tok, expire?)` a success with the optional
server-reported ttl in seconds. -/
abbrev TokenExchange : Type := Option (String × Option Nat)

/-- dynamic-agent.ts `getToken`. Returns the token, the new cache state, and
whether a network exchange was performed; a failed exchange is the thrown
`Token error`. -/
def getToken (st : TokenCacheState) (domain : Option String) (appId : String) (now : Nat)
    (exchange : TokenExchange) : Except String (String × TokenCacheState × Bool) :=
  let st1 := cleanupTokenCache st now
  let key := domain.getD "feishu" ++ "|" ++ appId
  match mapGet st1.cache key with
  | some cached =>
      if now + 60000 < cached.expiresAt then .ok (cached.token, st1, false)
      else
        match exchange with
        | none => .error "Token error"
        | some (tok, expire) =>
            let entry : TokenEntry := ⟨tok, now + (expire.getD 7200) * 1000⟩
            .ok (tok, { st1 with cache := mapSet st1.cache key entry }, true)
  | none =>
      match exchange with
      | none => .error "Token error"
      | some (tok, expire) =>
          let entry : TokenEntry := ⟨tok, now + (expire.getD 7200) * 1000⟩
          .ok (tok, { st1 with cache := mapSet st1.cache key entry }, true)

/-! ### Streaming session (dynamic-agent.ts `FeishuStreamingSession`) -/

/-- JavaScript `String.prototype.trim` on a character list. -/
def jsTrim (l : List Char) : List Char :=
  ((l.dropWhile Char.isWhitespace).reverse.dropWhile Char.isWhitespace).reverse

/-- `truncateSummary`: collapse newlines to spaces, trim, and keep at most 50
characters, ellipsis-suffixed when truncated (lengths counted in characters). -/
def truncateSummary (text : String) : String :=
  if text = "" then ""
  else
    let clean := jsTrim (text.data.map (fun c => if c = '\n' then ' ' else c))
    if clean.length ≤ 50 then String.mk clean
    else String.mk (clean.take 47) ++ "..."

def DEFAULT_UPDATE_THROTTLE_MS : Nat := 100

structure CardState where
  cardId : String
  messageId : String
  sequence : Nat
  currentText : String
deriving DecidableEq

/-- The mutable fields of a `FeishuStreamingSession`. -/
structure Session where
  state : Option CardState
  closed : Bool
  lastUpdateTime : Nat
  pendingText : Option String
  updateThrottleMs : Nat
  errorCount : Nat
  maxErrors : Nat
deriving DecidableEq

/-- A freshly constructed session with the given throttle interval. -/
def Session.mkNew (throttleMs : Nat) : Session :=
  { state := none, closed := false, lastUpdateTime := 0, pendingText := none,
    updateThrottleMs := throttleMs, errorCount := 0, maxErrors := 5 }

def Session.isActive (s : Session) : Bool :=
  s.state.isSome && !s.closed

def Session.getErrorCount (s : Session) : Nat :=
  s.errorCount

/-- A network mutation issued against the card, as observed on the wire. -/
inductive NetCall where
  | contentUpdate (cardId : String) (content : String) (sequence : Nat) (uuid : String)
  | settingsUpdate (cardId : String) (summary : String) (sequence : Nat) (uuid : String)
deriving DecidableEq

/-- `handleError`: bump the error counter, report through log/error callbacks
(the emitted messages keep only the context tag), and trip the circuit breaker
at `maxErrors`. -/
def handleError (s : Session) (context : String) : Session × List String :=
  let s1 := { s with errorCount := s.errorCount + 1 }
  if s1.maxErrors ≤ s1.errorCount then
    ({ s1 with closed := true },
      ["StreamingCard " ++ context, "StreamingCard: Too many errors"])
  else (s1, ["StreamingCard " ++ context])

/-- `start`. `createRes` is `some cardId` when the card-creation response had
`code = 0` and a `card_id` (`none` otherwise), `sendRes` likewise `some
messageId` for the message send. Returns the session after the call plus the
propagated error, if any (the token fetch is folded into `createRes`). -/
def Session.start (s : Session) (createRes sendRes : Option String) :
    Session × Option String :=
  match s.state with
  | some _ => (s, none)
  | none =>
    match createRes with
    | none => (s, some "Create card failed")
    | some cardId =>
      match sendRes with
      | none => (s, some "Send card failed")
      | some messageId =>
        ({ s with state := some ⟨cardId, messageId, 1, ""⟩ }, none)

/-- `update(text) `, called at instant `now`; `netOk` tells whether the queued
content-replace fetch (token fetch included) succeeded. Returns the session,
the network calls issued, and the error-callback messages emitted. The queued
unit runs in enqueue order on the serialized promise chain. -/
def Session.update (s : Session) (text : String) (now : Nat) (netOk : Bool) :
    Session × List NetCall × List String :=
  match s.state with
  | none => (s, [], [])
  | some _ =>
    if s.closed then (s, [], [])
    else if now - s.lastUpdateTime < s.updateThrottleMs then
      ({ s with pendingText := some text }, [], [])
    else
      let s1 := { s with pendingText := none, lastUpdateTime := now }
      match s1.state with
      | none => (s1, [], [])
      | some st =>
        if s1.closed then (s1, [], [])
        else
          let st1 := { st with currentText := text, sequence := st.sequence + 1 }
          let s2 := { s1 with state := some st1 }
          let call := NetCall.contentUpdate st1.cardId text st1.sequence
            ("s_" ++ st1.cardId ++ "_" ++ toString st1.sequence)
          if netOk then (s2, [call], [])
          else
            let r := handleError s2 "update"
            (r.1, [call], r.2)

/-- `close(finalText?)`. `flushOk` and `settingsOk` tell whether the final
content-replace (when issued) and the settings mutation succeeded. -/
def Session.close (s : Session) (finalText : Option String) (flushOk settingsOk : Bool) :
    Session × List NetCall × List String :=
  match s.state with
  | none => (s, [], [])
  | some st0 =>
    if s.closed then (s, [], [])
    else
      let s1 := { s with closed := true }
      let text := (finalText.orElse (fun _ => s1.pendingText)).getD st0.currentText
      let flushed :=
        if text ≠ "" ∧ text ≠ st0.currentText then
          let stA := { st0 with sequence := st0.sequence + 1 }
          let c := NetCall.contentUpdate stA.cardId text stA.sequence
            ("s_" ++ stA.cardId ++ "_" ++ toString stA.sequence)
          if flushOk then
            let stB := { stA with currentText := text }
            (({ s1 with state := some stB }, stB), ([c], ([] : List String)))
          else
            let r := handleError { s1 with state := some stA } "close update"
            ((r.1, stA), ([c], r.2))
        else ((s1, st0), ([], []))
      let s2 := flushed.1.1
      let st1 := flushed.1.2
      let stS := { st1 with sequence := st1.sequence + 1 }
      let s3 := { s2 with state := some stS }
      let cS := NetCall.settingsUpdate stS.cardId (truncateSummary text) stS.sequence
        ("c_" ++ stS.cardId ++ "_" ++ toString stS.sequence)
      if settingsOk then (s3, flushed.2.1 ++ [cS], flushed.2.2)
      else
        let r := handleError s3 "close settings"
        (r.1, flushed.2.1 ++ [cS], flushed.2.2 ++ r.2)

/-- One `update` invocation: its text, the instant it is made, and whether its
fetch (if one is issued) succeeds. -/
structure UpdateCall where
  text : String
  now : Nat
  netOk : Bool
deriving DecidableEq

/-- Run a sequence of `update` calls, accumulating the traces. -/
def Session.runUpdates (s : Session) : List UpdateCall → Session × List NetCall × List String
  | [] => (s, [], [])
  | u :: us =>
    let r := s.update u.text u.now u.netOk
    let rest := r.1.runUpdates us
    (rest.1, r.2.1 ++ rest.2.1, r.2.2 ++ rest.2.2)

/-! ### Lemmas about the `Map` model -/

theorem mapGet_cons {α : Type} (p : String × α) (m : List (String × α)) (k : String) :
    mapGet (p :: m) k = if p.1 = k then some p.2 else mapGet m k := by
  unfold mapGet
  by_cases hp : p.1 = k
  · rw [List.find?_cons_of_pos _ (by simpa using hp), if_pos hp]
    rfl
  · rw [List.find?_cons_of_neg _ (by simpa using hp), if_neg hp]

theorem mapGet_mapSet_self {α : Type} (m : List (String × α)) (k : String) (v : α) :
    mapGet (mapSet m k v) k = some v := by
  unfold mapSet
  by_cases h : m.any (fun p => p.1 == k)
  · rw [if_pos h]
    induction m with
    | nil => simp at h
    | cons p m ih =>
      rw [List.any_cons] at h
      by_cases hp : p.1 = k
      · rw [List.map_cons, if_pos (by simpa using hp), mapGet_cons]
        simp
      · rw [List.map_cons, if_neg (by simpa using hp), mapGet_cons, if_neg hp]
        refine ih ?_
        rcases Bool.or_eq_true_iff.1 h with h1 | h1
        · exact absurd (by simpa using h1) hp
        · exact h1
  · rw [if_neg h]
    induction m with
    | nil => simp [mapGet_cons]
    | cons p m ih =>
      rw [List.any_cons] at h
      have hp : ¬ p.1 = k := by
        intro hc
        exact h (by simp [hc])
      rw [List.cons_append, mapGet_cons, if_neg hp]
      refine ih ?_
      intro hc
      exact h (by simp [hc])

theorem mapGet_mapSet_ne {α : Type} (m : List (String × α)) (k k' : String) (v : α)
    (hne : k' ≠ k) :
    mapGet (mapSet m k v) k' = mapGet m k' := by
  unfold mapSet
  by_cases h : m.any (fun p => p.1 == k)
  · rw [if_pos h]
    clear h
    induction m with
    | nil => rfl
    | cons p m ih =>
      rw [List.map_cons]
      by_cases hp : p.1 = k
      · rw [if_pos (show (p.1 == k) = true by simpa using hp), mapGet_cons, mapGet_cons,
          if_neg (show ¬ ((k, v).1 = k') from fun hc => hne (hc.symm)),
          if_neg (show ¬ (p.1 = k') from fun hc => hne (hp ▸ hc.symm ▸ rfl))]
        exact ih
      · rw [if_neg (show ¬ ((p.1 == k) = true) by simpa using hp), mapGet_cons, mapGet_cons]
        by_cases hq : p.1 = k'
        · rw [if_pos hq, if_pos hq]
        · rw [if_neg hq, if_neg hq]
          exact ih
  · rw [if_neg h]
    clear h
    induction m with
    | nil =>
      show mapGet [(k, v)] k' = mapGet [] k'
      rw [mapGet_cons, if_neg (show ¬ ((k, v).1 = k') from fun hc => hne hc.symm)]
    | cons p m ih =>
      rw [List.cons_append, mapGet_cons, mapGet_cons]
      by_cases hq : p.1 = k'
      · rw [if_pos hq, if_pos hq]
      · rw [if_neg hq, if_neg hq]
        exact ih

theorem mapGet_mapDelete_self {α : Type} (m : List (String × α)) (k : String) :
    mapGet (mapDelete m k) k = none := by
  unfold mapDelete
  induction m with
  | nil => rfl
  | cons p m ih =>
    by_cases hp : p.1 = k
    · rw [List.filter_cons_of_neg (by simp [hp])]
      exact ih
    · rw [List.filter_cons_of_pos (by simp [hp]), mapGet_cons, if_neg hp]
      exact ih

theorem mapGet_mapDelete_ne {α : Type} (m : List (String × α)) (k k' : String) (hne : k' ≠ k) :
    mapGet (mapDelete m k) k' = mapGet m k' := by
  unfold mapDelete
  induction m with
  | nil => rfl
  | cons p m ih =>
    by_cases hp : p.1 = k
    · rw [List.filter_cons_of_neg (by simp [hp]), mapGet_cons, if_neg (by rw [hp]; exact Ne.symm hne)]
      exact ih
    · rw [List.filter_cons_of_pos (by simp [hp]), mapGet_cons, mapGet_cons]
      by_cases hq : p.1 = k'
      · rw [if_pos hq, if_pos hq]
      · rw [if_neg hq, if_neg hq]
        exact ih

theorem any_key_of_mapGet_some {α : Type} (m : List (String × α)) (k : String) (v : α)
    (h : mapGet m k = some v) : m.any (fun p => p.1 == k) = true := by
  induction m with
  | nil => simp [mapGet] at h
  | cons p m ih =>
    rw [mapGet_cons] at h
    rw [List.any_cons]
    by_cases hp : p.1 = k
    · simp [hp]
    · rw [if_neg hp] at h
      simp [ih h]

theorem length_mapSet_of_get_some {α : Type} (m : List (String × α)) (k : String) (v w : α)
    (h : mapGet m k = some v) : (mapSet m k w).length = m.length := by
  unfold mapSet
  rw [if_pos (any_key_of_mapGet_some m k v h), List.length_map]

theorem mapDelete_eq_self {α : Type} (m : List (String × α)) (k : String)
    (h : ∀ p ∈ m, p.1 ≠ k) : mapDelete m k = m := by
  unfold mapDelete
  rw [List.filter_eq_self]
  intro p hp
  simpa using h p hp

theorem length_mapDelete_of_nodup {α : Type} (m : List (String × α)) (k : String)
    (hnd : (m.map Prod.fst).Nodup) (hmem : k ∈ m.map Prod.fst) :
    (mapDelete m k).length + 1 = m.length := by
  induction m with
  | nil => simp at hmem
  | cons p m ih =>
    rw [List.map_cons, List.nodup_cons] at hnd
    by_cases hp : p.1 = k
    · have hrest : mapDelete m k = m := by
        refine mapDelete_eq_self m k ?_
        intro q hq hqk
        exact hnd.1 (hp ▸ hqk ▸ List.mem_map_of_mem Prod.fst hq)
      unfold mapDelete
      rw [List.filter_cons_of_neg (by simp [hp])]
      show (mapDelete m k).length + 1 = m.length + 1
      rw [hrest]
    · have hmem' : k ∈ m.map Prod.fst := by
        rw [List.map_cons] at hmem
        rcases List.mem_cons.1 hmem with h | h
        · exact absurd h.symm hp
        · exact h
      unfold mapDelete
      rw [List.filter_cons_of_pos (by simp [hp]), List.length_cons]
      show (mapDelete m k).length + 1 + 1 = m.length + 1
      rw [ih hnd.2 hmem']

theorem findOldest_foldl_mem (m : List (String × ClientEntry)) (acc : Option (String × Nat))
    (q : String × Nat)
    (h : m.foldl (fun acc p =>
      match acc with
      | none => some (p.1, p.2.lastAccess)
      | some (k, t) => if p.2.lastAccess < t then some (p.1, p.2.lastAccess) else some (k, t))
      acc = some q) :
    (∃ p ∈ m, q = (p.1, p.2.lastAccess)) ∨ acc = some q := by
  induction m generalizing acc with
  | nil => exact Or.inr h
  | cons p m ih =>
    rw [List.foldl_cons] at h
    rcases ih _ h with h1 | h1
    · obtain ⟨r, hr, he⟩ := h1
      exact Or.inl ⟨r, List.mem_cons_of_mem p hr, he⟩
    · cases acc with
      | none =>
        refine Or.inl ⟨p, List.mem_cons_self p m, ?_⟩
        simpa using h1.symm
      | some r =>
        rcases r with ⟨rk, rt⟩
        by_cases hlt : p.2.lastAccess < rt
        · refine Or.inl ⟨p, List.mem_cons_self p m, ?_⟩
          simp only [if_pos hlt] at h1
          simpa using h1.symm
        · simp only [if_neg hlt] at h1
          exact Or.inr h1

theorem findOldest_mem (m : List (String × ClientEntry)) (k : String)
    (h : findOldest m = some k) : k ∈ m.map Prod.fst := by
  unfold findOldest at h
  rcases Option.map_eq_some'.1 h with ⟨q, hq, hk⟩
  rcases findOldest_foldl_mem m none q hq with ⟨p, hp, he⟩ | h1
  · subst hk
    rw [he]
    exact List.mem_map_of_mem Prod.fst hp
  · cases h1

/-! ### Concrete sessions used as test inputs -/

/-- An ACTIVE session as produced by a successful `start` (sequence 1, empty
text), with the default 100 ms throttle. -/
def activeSession (cardId messageId : String) : Session :=
  { state := some ⟨cardId, messageId, 1, ""⟩, closed := false, lastUpdateTime := 0,
    pendingText := none, updateThrottleMs := 100, errorCount := 0, maxErrors := 5 }

/-- An ACTIVE session that has already displayed the text `"hello"`. -/
def closeSample : Session :=
  { state := some ⟨"c", "m", 3, "hello"⟩, closed := false, lastUpdateTime := 0,
    pendingText := none, updateThrottleMs := 100, errorCount := 0, maxErrors := 5 }

/-! ### Claim theorems -/

/-- C9, counterexample: for the unknown non-URL domain value `"banana"`,
API-base resolution falls back to the Feishu base, but client construction
(`resolveDomain`) does **not** fall back — it treats the value as a custom
private-deployment URL. -/
theorem claim_C9_counterexample :
    resolveApiBase (some "banana") = FEISHU_API_BASE ∧
    resolveDomain (some "banana") = ResolvedDomain.custom "banana" ∧
    resolveDomain (some "banana") ≠ ResolvedDomain.sdk LarkDomain.feishu := by decide

/-- C9, amended: for every domain value outside the enumerated set
(`"feishu"`, `"lark"`, absent, or the falsy empty string) that is not an
`http`-prefixed URL, `resolveApiBase` falls back to the default Feishu API
base, while `resolveDomain` (used for client construction) passes the value
through as a private-deployment URL instead of falling back. -/
theorem claim_C9_domain_fallback (d : String) (hlark : d ≠ "lark") (hfei : d ≠ "feishu")
    (hne : d ≠ "") (hhttp : strStartsWith d "http" = false) :
    resolveApiBase (some d) = FEISHU_API_BASE ∧
    resolveDomain (some d) = ResolvedDomain.custom (stripTrailingSlashes d) := by
  constructor
  · simp only [resolveApiBase, Option.some.injEq, if_neg hlark]
    simp [hne, hfei, hhttp]
  · simp only [resolveDomain, Option.some.injEq, if_neg hlark]
    simp [hne, hfei]

/-- Witness for C9: instantiates the amended theorem at `"banana"`. -/
theorem claim_C9_domain_fallback_witness :
    resolveApiBase (some "banana") = FEISHU_API_BASE ∧
    resolveDomain (some "banana") = ResolvedDomain.custom (stripTrailingSlashes "banana") :=
  claim_C9_domain_fallback "banana" (by decide) (by decide) (by decide) (by decide)

/-- C6: if `start` fails (card creation or message send returns a non-zero code
or no id), the error propagates to the caller and the session is unchanged: its
`CardState` stays `null` and `isActive()` stays false. -/
theorem claim_C6_start_failure (s : Session) (createRes sendRes : Option String)
    (hun : s.state = none) (hfail : createRes = none ∨ sendRes = none) :
    (s.start createRes sendRes).1 = s ∧ (s.start createRes sendRes).1.state = none ∧
    (s.start createRes sendRes).1.isActive = false ∧
    (s.start createRes sendRes).2.isSome = true := by
  have hbody : (s.start createRes sendRes).1 = s ∧ (s.start createRes sendRes).2.isSome = true := by
    rcases hfail with h | h
    · subst h
      simp [Session.start, hun]
    · subst h
      cases createRes <;> simp [Session.start, hun]
  refine ⟨hbody.1, ?_, ?_, hbody.2⟩
  · rw [hbody.1, hun]
  · rw [hbody.1]
    simp [Session.isActive, hun]

/-- Witness for C6: a fresh session whose card-creation call fails. -/
theorem claim_C6_start_failure_witness :
    ((Session.mkNew 100).start none (some "m")).1 = Session.mkNew 100 ∧
    ((Session.mkNew 100).start none (some "m")).1.state = none ∧
    ((Session.mkNew 100).start none (some "m")).1.isActive = false ∧
    ((Session.mkNew 100).start none (some "m")).2.isSome = true :=
  claim_C6_start_failure (Session.mkNew 100) none (some "m") (by decide) (Or.inl rfl)

/-- C3, counterexample: after `update("a")` (accepted at t=100) and
`update("b")` (throttled at t=150) with no further calls, exactly one
content-update mutation results over the whole run, but it carries `"a"`, not
`"b"`; `"b"` is only recorded as the pending text. -/
theorem claim_C3_counterexample :
    ((activeSession "c" "m").update "a" 100 true).2.1 =
      [NetCall.contentUpdate "c" "a" 2 "s_c_2"] ∧
    (((activeSession "c" "m").update "a" 100 true).1.update "b" 150 true).2.1 = [] ∧
    (((activeSession "c" "m").update "a" 100 true).1.update "b" 150 true).1.pendingText =
      some "b" ∧
    ((activeSession "c" "m").runUpdates [⟨"a", 100, true⟩, ⟨"b", 150, true⟩]).2.1 =
      [NetCall.contentUpdate "c" "a" 2 "s_c_2"] ∧
    ("a" : String) ≠ "b" := by decide

/-- C3, amended: if `update(a)` is accepted by the throttle and `update(b)` is
called within the throttle window, with no further calls, exactly one
content-update mutation results and it carries `a` (the text of the accepted
call); `b` is retained as the pending text, to be flushed only by a later
accepted update or by `close`. -/
theorem claim_C3_throttle_collapse (s : Session) (st : CardState) (a b : String)
    (now1 now2 : Nat) (hst : s.state = some st) (hcl : s.closed = false)
    (hacc : s.updateThrottleMs ≤ now1 - s.lastUpdateTime)
    (hthr : now2 - now1 < s.updateThrottleMs) :
    (s.update a now1 true).2.1 =
      [NetCall.contentUpdate st.cardId a (st.sequence + 1)
        ("s_" ++ st.cardId ++ "_" ++ toString (st.sequence + 1))] ∧
    ((s.update a now1 true).1.update b now2 true).2.1 = [] ∧
    ((s.update a now1 true).1.update b now2 true).1.pendingText = some b ∧
    (s.runUpdates [⟨a, now1, true⟩, ⟨b, now2, true⟩]).2.1 =
      [NetCall.contentUpdate st.cardId a (st.sequence + 1)
        ("s_" ++ st.cardId ++ "_" ++ toString (st.sequence + 1))] := by
  have hnot : ¬ (now1 - s.lastUpdateTime < s.updateThrottleMs) := Nat.not_lt.mpr hacc
  refine ⟨?_, ?_, ?_, ?_⟩ <;>
    simp [Session.runUpdates, Session.update, hst, hcl, hnot, hthr]

/-- Witness for C3: instantiates the amended theorem on a fresh active session
with `update("a")` at t=100 and `update("b")` at t=150. -/
theorem claim_C3_throttle_collapse_witness :
    ((activeSession "c" "m").update "a" 100 true).2.1 =
      [NetCall.contentUpdate "c" "a" 2 ("s_" ++ "c" ++ "_" ++ toString 2)] ∧
    (((activeSession "c" "m").update "a" 100 true).1.update "b" 150 true).2.1 = [] ∧
    (((activeSession "c" "m").update "a" 100 true).1.update "b" 150 true).1.pendingText =
      some "b" ∧
    ((activeSession "c" "m").runUpdates [⟨"a", 100, true⟩, ⟨"b", 150, true⟩]).2.1 =
      [NetCall.contentUpdate "c" "a" 2 ("s_" ++ "c" ++ "_" ++ toString 2)] :=
  claim_C3_throttle_collapse (activeSession "c" "m") ⟨"c", "m", 1, ""⟩ "a" "b" 100 150
    (by decide) (by decide) (by decide) (by decide)

/-- `handleError` never touches the card state. -/
theorem handleError_state (s : Session) (ctx : String) :
    (handleError s ctx).1.state = s.state := by
  by_cases h : s.maxErrors ≤ s.errorCount + 1 <;> simp [handleError, h]

/-- The final text `close` flushes: the explicit `finalText` argument when one
was passed, else the pending throttled text, else the last `currentText`. -/
def chosenFinalText (s : Session) (st : CardState) (finalText : Option String) : String :=
  (finalText.orElse (fun _ => s.pendingText)).getD st.currentText

theorem handleError_errorCount (s : Session) (ctx : String) :
    (handleError s ctx).1.errorCount = s.errorCount + 1 := by
  by_cases h : s.maxErrors ≤ s.errorCount + 1 <;> simp [handleError, h]

theorem handleError_snd_ne (s : Session) (ctx : String) :
    (handleError s ctx).2 ≠ [] := by
  by_cases h : s.maxErrors ≤ s.errorCount + 1 <;> simp [handleError, h]

/-- How many of the network mutations issued by `close(finalText)` fail: the
final content-replace (issued only when the chosen text is non-empty and
differs from `currentText`) when `fOk` is false, plus the settings mutation
when `sOk` is false. -/
def closeFailureCount (s : Session) (st : CardState) (finalText : Option String)
    (fOk sOk : Bool) : Nat :=
  (if (chosenFinalText s st finalText ≠ "" ∧ chosenFinalText s st finalText ≠ st.currentText) ∧
      fOk = false then 1 else 0) +
  (if sOk = false then 1 else 0)

theorem close_contains_failures (s : Session) (st : CardState) (finalText : Option String)
    (fOk sOk : Bool) (hst : s.state = some st) (hcl : s.closed = false) :
    (s.close finalText fOk sOk).1.getErrorCount =
      s.getErrorCount + closeFailureCount s st finalText fOk sOk ∧
    (closeFailureCount s st finalText fOk sOk ≠ 0 → (s.close finalText fOk sOk).2.2 ≠ []) := by
  by_cases hc : chosenFinalText s st finalText ≠ "" ∧ chosenFinalText s st finalText ≠ st.currentText
  · have h1 : (finalText.orElse (fun _ => s.pendingText)).getD st.currentText ≠ "" := hc.1
    have h2 : (finalText.orElse (fun _ => s.pendingText)).getD st.currentText ≠ st.currentText :=
      hc.2
    cases fOk <;> cases sOk
    · refine ⟨?_, fun hf => ?_⟩ <;>
        simp [Session.close, hst, hcl, h1, h2, closeFailureCount, hc, Session.getErrorCount,
          handleError_errorCount, handleError_snd_ne, List.append_eq_nil]
    · refine ⟨?_, fun hf => ?_⟩ <;>
        simp [Session.close, hst, hcl, h1, h2, closeFailureCount, hc, Session.getErrorCount,
          handleError_errorCount, handleError_snd_ne, List.append_eq_nil]
    · refine ⟨?_, fun hf => ?_⟩ <;>
        simp [Session.close, hst, hcl, h1, h2, closeFailureCount, hc, Session.getErrorCount,
          handleError_errorCount, handleError_snd_ne, List.append_eq_nil]
    · refine ⟨?_, fun hf => absurd ?_ hf⟩
      · simp [Session.close, hst, hcl, h1, h2, closeFailureCount, hc, Session.getErrorCount,
          handleError_errorCount]
      · simp [closeFailureCount, hc]
  · have hcond : ¬ ((finalText.orElse (fun _ => s.pendingText)).getD st.currentText ≠ "" ∧
        (finalText.orElse (fun _ => s.pendingText)).getD st.currentText ≠ st.currentText) := hc
    cases sOk
    · refine ⟨?_, fun hf => ?_⟩ <;>
        simp [Session.close, hst, hcl, hcond, closeFailureCount, hc, Session.getErrorCount,
          handleError_errorCount, handleError_snd_ne]
    · refine ⟨?_, fun hf => absurd ?_ hf⟩
      · simp [Session.close, hst, hcl, hcond, closeFailureCount, hc, Session.getErrorCount,
          handleError_errorCount]
      · simp [closeFailureCount, hc]

/-- C7, counterexample: with `currentText = "hello"` and `close("")`, the chosen
final text `""` differs from `currentText`, yet no content-replace call is
issued — the truthiness guard `if (text && ...)` skips the flush for an empty
final text; only the settings mutation goes out. -/
theorem claim_C7_counterexample :
    closeSample.state = some ⟨"c", "m", 3, "hello"⟩ ∧
    chosenFinalText closeSample ⟨"c", "m", 3, "hello"⟩ (some "") = "" ∧
    ("" : String) ≠ "hello" ∧
    (closeSample.close (some "") true true).2.1 =
      [NetCall.settingsUpdate "c" "" 4 "c_c_4"] := by decide

/-- C7, amended: `close` determines the text to flush with priority explicit
`finalText`, else pending throttled text, else `currentText`
(`chosenFinalText`); when that text is **non-empty** and differs from
`currentText`, exactly one more content-replace call with an incremented
sequence is issued before the final settings mutation; when it is empty or
equal to `currentText`, only the settings mutation is issued. -/
theorem claim_C7_close_flush (s : Session) (st : CardState) (finalText : Option String)
    (fOk sOk : Bool) (hst : s.state = some st) (hcl : s.closed = false) :
    (chosenFinalText s st finalText ≠ "" → chosenFinalText s st finalText ≠ st.currentText →
      (s.close finalText fOk sOk).2.1 =
        [NetCall.contentUpdate st.cardId (chosenFinalText s st finalText) (st.sequence + 1)
            ("s_" ++ st.cardId ++ "_" ++ toString (st.sequence + 1)),
          NetCall.settingsUpdate st.cardId (truncateSummary (chosenFinalText s st finalText))
            (st.sequence + 2) ("c_" ++ st.cardId ++ "_" ++ toString (st.sequence + 2))]) ∧
    (chosenFinalText s st finalText = "" ∨ chosenFinalText s st finalText = st.currentText →
      (s.close finalText fOk sOk).2.1 =
        [NetCall.settingsUpdate st.cardId (truncateSummary (chosenFinalText s st finalText))
          (st.sequence + 1) ("c_" ++ st.cardId ++ "_" ++ toString (st.sequence + 1))]) := by
  constructor
  · intro h1 h2
    simp only [chosenFinalText] at h1 h2
    cases fOk <;> cases sOk <;>
      simp [Session.close, hst, hcl, h1, h2, chosenFinalText, handleError]
  · intro h
    have hcond : ¬ ((finalText.orElse (fun _ => s.pendingText)).getD st.currentText ≠ "" ∧
        (finalText.orElse (fun _ => s.pendingText)).getD st.currentText ≠ st.currentText) := by
      simp only [chosenFinalText] at h
      rcases h with h | h
      · intro hc
        exact hc.1 h
      · intro hc
        exact hc.2 h
    cases sOk <;>
      simp [Session.close, hst, hcl, hcond, chosenFinalText, handleError]

/-- Witness for C7: instantiates the amended theorem on `closeSample`
(`currentText = "hello"`) with `close("bye")`, whose chosen text is non-empty
and different. -/
theorem claim_C7_close_flush_witness :
    (chosenFinalText closeSample ⟨"c", "m", 3, "hello"⟩ (some "bye") ≠ "" →
      chosenFinalText closeSample ⟨"c", "m", 3, "hello"⟩ (some "bye") ≠ "hello" →
      (closeSample.close (some "bye") true true).2.1 =
        [NetCall.contentUpdate "c" (chosenFinalText closeSample ⟨"c", "m", 3, "hello"⟩ (some "bye"))
            4 ("s_" ++ "c" ++ "_" ++ toString 4),
          NetCall.settingsUpdate "c"
            (truncateSummary (chosenFinalText closeSample ⟨"c", "m", 3, "hello"⟩ (some "bye")))
            5 ("c_" ++ "c" ++ "_" ++ toString 5)]) ∧
    (chosenFinalText closeSample ⟨"c", "m", 3, "hello"⟩ (some "bye") = "" ∨
      chosenFinalText closeSample ⟨"c", "m", 3, "hello"⟩ (some "bye") = "hello" →
      (closeSample.close (some "bye") true true).2.1 =
        [NetCall.settingsUpdate "c"
          (truncateSummary (chosenFinalText closeSample ⟨"c", "m", 3, "hello"⟩ (some "bye")))
          4 ("c_" ++ "c" ++ "_" ++ toString 4)]) :=
  claim_C7_close_flush closeSample ⟨"c", "m", 3, "hello"⟩ (some "bye") true true
    (by decide) (by decide)

/-- C8, counterexample: `close`'s final flush does **not** set `currentText`
before the network call: with `currentText = "hello"` and a failing
`close("bye")` flush, the content-replace carrying `"bye"` is issued, yet
`currentText` remains `"hello"` (it is committed only after a successful
response). -/
theorem claim_C8_counterexample :
    (closeSample.close (some "bye") false true).2.1 =
      [NetCall.contentUpdate "c" "bye" 4 "s_c_4",
        NetCall.settingsUpdate "c" "bye" 5 "c_c_5"] ∧
    (closeSample.close (some "bye") false true).1.state = some ⟨"c", "m", 5, "hello"⟩ ∧
    ("hello" : String) ≠ "bye" := by decide

/-- C8, amended: `update()` sets `currentText` to the outgoing text before the
network call, so it reflects the attempted value even when the call fails;
`close()`'s final flush instead commits `currentText` only after a successful
call — on failure the prior value is retained. -/
theorem claim_C8_current_text (s : Session) (st : CardState) (text : String) (now : Nat)
    (netOk fOk sOk : Bool) (finalText : Option String)
    (hst : s.state = some st) (hcl : s.closed = false)
    (hacc : s.updateThrottleMs ≤ now - s.lastUpdateTime) :
    (∃ st', (s.update text now netOk).1.state = some st' ∧ st'.currentText = text) ∧
    (chosenFinalText s st finalText ≠ "" → chosenFinalText s st finalText ≠ st.currentText →
      ∃ st', (s.close finalText fOk sOk).1.state = some st' ∧
        st'.currentText =
          (if fOk = true then chosenFinalText s st finalText else st.currentText)) := by
  have hnot : ¬ (now - s.lastUpdateTime < s.updateThrottleMs) := Nat.not_lt.mpr hacc
  constructor
  · cases netOk <;>
      simp [Session.update, hst, hcl, hnot, handleError_state]
  · intro h1 h2
    simp only [chosenFinalText] at h1 h2
    cases fOk <;> cases sOk <;>
      simp [Session.close, hst, hcl, h1, h2, chosenFinalText, handleError_state]

/-- Witness for C8: instantiates the amended theorem on `closeSample` with a
failing `update` at t=100 and a failing `close("bye")` flush. -/
theorem claim_C8_current_text_witness :
    (∃ st', (closeSample.update "t" 100 false).1.state = some st' ∧ st'.currentText = "t") ∧
    (chosenFinalText closeSample ⟨"c", "m", 3, "hello"⟩ (some "bye") ≠ "" →
      chosenFinalText closeSample ⟨"c", "m", 3, "hello"⟩ (some "bye") ≠ "hello" →
      ∃ st', (closeSample.close (some "bye") false true).1.state = some st' ∧
        st'.currentText =
          (if false = true then chosenFinalText closeSample ⟨"c", "m", 3, "hello"⟩ (some "bye")
           else "hello")) :=
  claim_C8_current_text closeSample ⟨"c", "m", 3, "hello"⟩ "t" 100 false false true (some "bye")
    (by decide) (by decide) (by decide)

/-- C5, counterexample: a fresh token exchange whose server-reported ttl is 10
seconds stores and returns a token that expires 10 s after `now`, i.e. with
less than 60 s of remaining validity at return time. -/
theorem claim_C5_counterexample :
    (getToken ⟨[], 0⟩ none "app" 1000000 (some ("tok", some 10))).toOption =
      some ("tok", ⟨[("feishu|app", ⟨"tok", 1010000⟩)], 1000000⟩, true) ∧
    1010000 < 1000000 + 60000 := by decide

/-- C5, amended: a cached entry is returned (with no exchange) only when its
`expiresAt` is more than 60 s in the future, so every cache-served token has
over 60 s of remaining validity and expired entries are never served; when the
cached entry is too close to expiry, a fresh exchange is performed and its
token is returned with `expiresAt = now + ttl` seconds (default 7200), which
honours the 60 s margin exactly when the server-reported ttl is ≥ 60 s. -/
theorem claim_C5_token_freshness (st : TokenCacheState) (domain : Option String)
    (appId tok : String) (now : Nat) (exchange : TokenExchange)
    (st' : TokenCacheState) (exch : Bool)
    (h : getToken st domain appId now exchange = Except.ok (tok, st', exch)) :
    (exch = false → ∃ e, mapGet (cleanupTokenCache st now).cache
        (domain.getD "feishu" ++ "|" ++ appId) = some e ∧
      e.token = tok ∧ now + 60000 < e.expiresAt) ∧
    (exch = true → ∃ ttl, exchange = some (tok, ttl) ∧
      mapGet st'.cache (domain.getD "feishu" ++ "|" ++ appId) =
        some ⟨tok, now + (ttl.getD 7200) * 1000⟩ ∧
      (60 ≤ ttl.getD 7200 → now + 60000 ≤ now + (ttl.getD 7200) * 1000)) := by
  simp only [getToken] at h
  rcases hm : mapGet (cleanupTokenCache st now).cache (domain.getD "feishu" ++ "|" ++ appId) with
    _ | c
  · simp only [hm] at h
    cases exchange with
    | none => exact absurd h (by simp)
    | some te =>
      rcases te with ⟨tk, ttl⟩
      simp only [Except.ok.injEq, Prod.mk.injEq] at h
      obtain ⟨htok, hst', hex⟩ := h
      constructor
      · intro hf
        rw [hf] at hex
        simp at hex
      · intro _
        refine ⟨ttl, by rw [htok], ?_, ?_⟩
        · rw [← hst', htok]
          exact mapGet_mapSet_self _ _ _
        · intro h60
          have := Nat.mul_le_mul_right 1000 h60
          omega
  · simp only [hm] at h
    by_cases hexp : now + 60000 < c.expiresAt
    · rw [if_pos hexp] at h
      simp only [Except.ok.injEq, Prod.mk.injEq] at h
      obtain ⟨htok, hst', hex⟩ := h
      constructor
      · intro _
        exact ⟨c, rfl, htok, hexp⟩
      · intro ht
        rw [ht] at hex
        simp at hex
    · rw [if_neg hexp] at h
      cases exchange with
      | none => exact absurd h (by simp)
      | some te =>
        rcases te with ⟨tk, ttl⟩
        simp only [Except.ok.injEq, Prod.mk.injEq] at h
        obtain ⟨htok, hst', hex⟩ := h
        constructor
        · intro hf
          rw [hf] at hex
          cases hex
        · intro _
          refine ⟨ttl, by rw [htok], ?_, ?_⟩
          · rw [← hst', htok]
            exact mapGet_mapSet_self _ _ _
          · intro h60
            have := Nat.mul_le_mul_right 1000 h60
            omega

/-- Witness for C5: instantiates the amended theorem on a cache hit with 61 s
of remaining validity. -/
theorem claim_C5_token_freshness_witness :
    ((false : Bool) = false → ∃ e, mapGet
        (cleanupTokenCache ⟨[("feishu|app", ⟨"cached", 1061001⟩)], 1000000⟩ 1000000).cache
        ((none : Option String).getD "feishu" ++ "|" ++ "app") = some e ∧
      e.token = "cached" ∧ 1000000 + 60000 < e.expiresAt) ∧
    ((false : Bool) = true → ∃ ttl, (none : TokenExchange) = some ("cached", ttl) ∧
      mapGet (⟨[("feishu|app", ⟨"cached", 1061001⟩)], 1000000⟩ : TokenCacheState).cache
        ((none : Option String).getD "feishu" ++ "|" ++ "app") =
        some ⟨"cached", 1000000 + (ttl.getD 7200) * 1000⟩ ∧
      (60 ≤ ttl.getD 7200 → 1000000 + 60000 ≤ 1000000 + (ttl.getD 7200) * 1000)) :=
  claim_C5_token_freshness ⟨[("feishu|app", ⟨"cached", 1061001⟩)], 1000000⟩ none "app" "cached"
    1000000 none ⟨[("feishu|app", ⟨"cached", 1061001⟩)], 1000000⟩ false (by rfl)

/-- An ACTIVE session that has already absorbed four contained errors. -/
def errSession : Session :=
  { state := some ⟨"c", "m", 9, "x"⟩, closed := false, lastUpdateTime := 0,
    pendingText := none, updateThrottleMs := 100, errorCount := 4, maxErrors := 5 }

/-- A session that has been closed. -/
def closedSession : Session :=
  { state := some ⟨"c", "m", 2, "x"⟩, closed := true, lastUpdateTime := 0,
    pendingText := none, updateThrottleMs := 100, errorCount := 0, maxErrors := 5 }

/-- C2: a failing network mutation is contained and never raised. A failing
`update()` mutation bumps the session error counter (visible through
`getErrorCount`), emits error-callback messages, and once the counter reaches
the fixed threshold 5 the session is forcibly CLOSED. Any closed session
ignores `update()` and `close()` entirely (no network call, no callback, no
state change — hence no reset). And each failing mutation issued by `close()`
itself — the final content-replace (when issued) and the settings mutation,
wrapped individually — bumps the counter by exactly one and fires the error
callback, while `close` still returns normally. -/
theorem claim_C2_error_containment :
    (∀ (s : Session) (st : CardState) (text : String) (now : Nat),
      s.state = some st → s.closed = false → s.maxErrors = 5 →
      s.updateThrottleMs ≤ now - s.lastUpdateTime →
      (s.update text now false).1.getErrorCount = s.getErrorCount + 1 ∧
      (s.update text now false).2.2 ≠ [] ∧
      (5 ≤ s.errorCount + 1 →
        (s.update text now false).1.closed = true ∧
        (s.update text now false).1.isActive = false)) ∧
    (∀ (s : Session) (text : String) (now : Nat) (netOk : Bool), s.closed = true →
      s.update text now netOk = (s, [], [])) ∧
    (∀ (s : Session) (finalText : Option String) (fOk sOk : Bool), s.closed = true →
      s.close finalText fOk sOk = (s, [], [])) ∧
    (∀ (s : Session) (st : CardState) (finalText : Option String) (fOk sOk : Bool),
      s.state = some st → s.closed = false →
      (s.close finalText fOk sOk).1.getErrorCount =
        s.getErrorCount + closeFailureCount s st finalText fOk sOk ∧
      (closeFailureCount s st finalText fOk sOk ≠ 0 →
        (s.close finalText fOk sOk).2.2 ≠ [])) := by
  refine ⟨?_, ?_, ?_, ?_⟩
  · intro s st text now hst hcl hm5 hacc
    have hnot : ¬ (now - s.lastUpdateTime < s.updateThrottleMs) := Nat.not_lt.mpr hacc
    by_cases hth : (5 : Nat) ≤ s.errorCount + 1
    · refine ⟨?_, ?_, fun _ => ⟨?_, ?_⟩⟩ <;>
        simp [Session.update, hst, hcl, hnot, handleError, Session.getErrorCount,
          Session.isActive, hm5, hth]
    · have hth' : ¬ s.maxErrors ≤ s.errorCount + 1 := by rw [hm5]; exact hth
      refine ⟨?_, ?_, fun hc => absurd hc hth⟩ <;>
        simp [Session.update, hst, hcl, hnot, handleError, Session.getErrorCount, hth']
  · intro s text now netOk hcl
    cases hs : s.state <;> simp [Session.update, hs, hcl]
  · intro s finalText fOk sOk hcl
    cases hs : s.state <;> simp [Session.close, hs, hcl]
  · intro s st finalText fOk sOk hst hcl
    exact close_contains_failures s st finalText fOk sOk hst hcl

/-- Witness for C2: a fifth failing update on `errSession` trips the breaker;
`closedSession` ignores both `update` and `close`; on `closeSample`, a `close`
whose flush and settings mutations both fail adds two contained errors and
fires the callback. -/
theorem claim_C2_error_containment_witness :
    ((errSession.update "t" 100 false).1.getErrorCount = errSession.getErrorCount + 1 ∧
      (errSession.update "t" 100 false).2.2 ≠ [] ∧
      ((errSession.update "t" 100 false).1.closed = true ∧
        (errSession.update "t" 100 false).1.isActive = false)) ∧
    closedSession.update "u" 200 true = (closedSession, [], []) ∧
    closedSession.close none true true = (closedSession, [], []) ∧
    ((closeSample.close (some "bye") false false).1.getErrorCount =
      closeSample.getErrorCount +
        closeFailureCount closeSample ⟨"c", "m", 3, "hello"⟩ (some "bye") false false ∧
      (closeFailureCount closeSample ⟨"c", "m", 3, "hello"⟩ (some "bye") false false ≠ 0 →
        (closeSample.close (some "bye") false false).2.2 ≠ [])) := by
  have h1 := claim_C2_error_containment.1 errSession ⟨"c", "m", 9, "x"⟩ "t" 100 (by decide)
    (by decide) (by decide) (by decide)
  exact ⟨⟨h1.1, h1.2.1, h1.2.2 (by decide)⟩,
    claim_C2_error_containment.2.1 closedSession "u" 200 true (by decide),
    claim_C2_error_containment.2.2.1 closedSession none true true (by decide),
    claim_C2_error_containment.2.2.2 closeSample ⟨"c", "m", 3, "hello"⟩ (some "bye") false false
      (by decide) (by decide)⟩

/-- The failing input for the cache bound: 51 distinct accountIds, the first of
which is the empty string, inserted with valid credentials at increasing
timestamps. -/
def c4BugCalls : List (FeishuClientCredentials × Nat) :=
  (("" :: (List.range 49).map (fun i => String.mk [Char.ofNat (65 + i)])) ++ ["zz"]).enum.map
    (fun p => (⟨some p.2, some "a", some "s", none⟩, p.1))

set_option maxRecDepth 8000 in
/-- C4 (code bug): inserting 51 distinct accountIds leaves **51** entries, not
50. When the cache is at capacity and the globally oldest entry is keyed by the
empty string, the guard `if (oldestKey)` in `evictOldestIfNeeded` is falsy, so
no entry is evicted and the insertion pushes the cache past its capacity bound
of 50. -/
theorem claim_C4_cache_overflow :
    c4BugCalls.length = 51 ∧
    (c4BugCalls.map (fun c => c.1.accountId)).Nodup ∧
    getClientCacheSize (runCreates ⟨[], 0⟩ c4BugCalls) = 51 ∧
    ¬ getClientCacheSize (runCreates ⟨[], 0⟩ c4BugCalls) ≤ CLIENT_CACHE_MAX_SIZE := by decide

/-- C10: at capacity (50 entries), a `createFeishuClient` call for an
`accountId` that is cached with non-matching credentials first evicts the
globally least-recently-accessed entry — possibly a different account — and
then overwrites the existing entry in place, leaving 49 entries. -/
theorem claim_C10_cross_account_eviction (st : ClientCacheState) (aid a sec : String)
    (dom : Option String) (cached : ClientEntry) (oldk : String) (now : Nat)
    (hnd : (st.entries.map Prod.fst).Nodup)
    (hfull : st.entries.length = 50)
    (hget : mapGet st.entries aid = some cached)
    (hmis : cached.config ≠ ⟨a, sec, dom⟩)
    (hold : findOldest st.entries = some oldk)
    (holdne : oldk ≠ "") (holdaid : oldk ≠ aid)
    (ha : a ≠ "") (hs : sec ≠ "") :
    ∃ r, createFeishuClient st ⟨some aid, some a, some sec, dom⟩ now = Except.ok r ∧
      r.2.entries.length = 49 ∧
      mapGet r.2.entries oldk = none ∧
      mapGet r.2.entries aid = some ⟨st.nextId, ⟨a, sec, dom⟩, now⟩ := by
  have hhit : cacheHit st aid ⟨a, sec, dom⟩ = none := by
    simp [cacheHit, hget, hmis]
  have hev : evictOldestIfNeeded st.entries = mapDelete st.entries oldk := by
    simp [evictOldestIfNeeded, CLIENT_CACHE_MAX_SIZE, hfull, hold, holdne]
  have hgetev : mapGet (mapDelete st.entries oldk) aid = some cached := by
    rw [mapGet_mapDelete_ne st.entries oldk aid (Ne.symm holdaid)]
    exact hget
  have hlen : (mapDelete st.entries oldk).length = 49 := by
    have := length_mapDelete_of_nodup st.entries oldk hnd (findOldest_mem _ _ hold)
    omega
  refine ⟨(st.nextId,
      ⟨mapSet (mapDelete st.entries oldk) aid ⟨st.nextId, ⟨a, sec, dom⟩, now⟩, st.nextId + 1⟩),
    ?_, ?_, ?_, ?_⟩
  · simp [createFeishuClient, strFalsy, ha, hs, hhit, hev]
  · exact (length_mapSet_of_get_some (mapDelete st.entries oldk) aid cached
      ⟨st.nextId, ⟨a, sec, dom⟩, now⟩ hgetev).trans hlen
  · rw [mapGet_mapSet_ne (mapDelete st.entries oldk) aid oldk
      ⟨st.nextId, ⟨a, sec, dom⟩, now⟩ holdaid]
    exact mapGet_mapDelete_self st.entries oldk
  · exact mapGet_mapSet_self (mapDelete st.entries oldk) aid ⟨st.nextId, ⟨a, sec, dom⟩, now⟩

/-- A full cache of 50 single-character accountIds, entry `i` created at time
`i + 1` with client id `i`. -/
def c10Entries : List (String × ClientEntry) :=
  (List.range 50).map (fun i => (String.mk [Char.ofNat (65 + i)], ⟨i, ⟨"a", "s", none⟩, i + 1⟩))

set_option maxRecDepth 8000 in
/-- Witness for C10: account `"B"` (cached with appId `"a"`) is re-created with
appId `"a2"`; the unrelated oldest entry `"A"` is evicted. -/
theorem claim_C10_cross_account_eviction_witness :
    ∃ r, createFeishuClient ⟨c10Entries, 100⟩ ⟨some "B", some "a2", some "s", none⟩ 999 =
        Except.ok r ∧
      r.2.entries.length = 49 ∧
      mapGet r.2.entries "A" = none ∧
      mapGet r.2.entries "B" = some ⟨100, ⟨"a2", "s", none⟩, 999⟩ :=
  claim_C10_cross_account_eviction ⟨c10Entries, 100⟩ "B" "a2" "s" none
    ⟨1, ⟨"a", "s", none⟩, 2⟩ "A" 999 (by decide) (by decide) (by decide) (by decide)
    (by decide) (by decide) (by decide) (by decide) (by decide)

/-- Text carried by a network call. -/
def netText : NetCall → String
  | .contentUpdate _ t _ _ => t
  | .settingsUpdate _ t _ _ => t

/-- Sequence number carried by a network call. -/
def netSeq : NetCall → Nat
  | .contentUpdate _ _ q _ => q
  | .settingsUpdate _ _ q _ => q

/-- Whether a network call is a content update. -/
def netIsContent : NetCall → Bool
  | .contentUpdate _ _ _ _ => true
  | .settingsUpdate _ _ _ _ => false

/-- Each instant clears the throttle window measured from the previous
accepted update (the first from `last`). -/
def acceptedChainB (last throttle : Nat) : List Nat → Bool
  | [] => true
  | t :: ts => (decide (throttle ≤ t - last)) && acceptedChainB t throttle ts

/-- The trace `n` accepted successful updates must produce: one content-replace
per update, in call order, with consecutive sequence numbers. -/
def expectedTrace (cardId : String) (seq : Nat) : List String → List NetCall
  | [] => []
  | t :: ts =>
    NetCall.contentUpdate cardId t (seq + 1) ("s_" ++ cardId ++ "_" ++ toString (seq + 1)) ::
      expectedTrace cardId (seq + 1) ts

theorem runUpdates_ok (us : List UpdateCall) :
    ∀ (s : Session) (st : CardState), s.state = some st → s.closed = false →
    (∀ u ∈ us, u.netOk = true) →
    acceptedChainB s.lastUpdateTime s.updateThrottleMs (us.map (fun u => u.now)) = true →
    (s.runUpdates us).2.1 = expectedTrace st.cardId st.sequence (us.map (fun u => u.text)) := by
  induction us with
  | nil =>
    intro s st hst hcl _ _
    rfl
  | cons u us ih =>
    intro s st hst hcl hok hchain
    simp only [List.map_cons, acceptedChainB, Bool.and_eq_true, decide_eq_true_eq] at hchain
    obtain ⟨hacc, hchain2⟩ := hchain
    have hnot : ¬ (u.now - s.lastUpdateTime < s.updateThrottleMs) := Nat.not_lt.mpr hacc
    have hu : u.netOk = true := hok u (List.mem_cons_self u us)
    simp only [Session.runUpdates]
    rw [hu]
    simp only [Session.update, hst, hcl, Bool.false_eq_true, if_false, if_neg hnot,
      expectedTrace, List.map_cons]
    rw [ih _ ⟨st.cardId, st.messageId, st.sequence + 1, u.text⟩ rfl rfl
      (fun v hv => hok v (List.mem_cons_of_mem u hv)) hchain2]
    rfl

theorem expectedTrace_length (cardId : String) (seq : Nat) (ts : List String) :
    (expectedTrace cardId seq ts).length = ts.length := by
  induction ts generalizing seq with
  | nil => rfl
  | cons t ts ih => simp [expectedTrace, ih]

theorem expectedTrace_map_netText (cardId : String) (seq : Nat) (ts : List String) :
    (expectedTrace cardId seq ts).map netText = ts := by
  induction ts generalizing seq with
  | nil => rfl
  | cons t ts ih => simp [expectedTrace, netText, ih]

theorem expectedTrace_map_netSeq (cardId : String) (seq : Nat) (ts : List String) :
    (expectedTrace cardId seq ts).map netSeq = List.range' (seq + 1) ts.length := by
  induction ts generalizing seq with
  | nil => rfl
  | cons t ts ih =>
    rw [expectedTrace, List.map_cons, List.length_cons, List.range'_succ, ih]
    rfl

theorem expectedTrace_content (cardId : String) (seq : Nat) (ts : List String) :
    ∀ c ∈ expectedTrace cardId seq ts, netIsContent c = true := by
  induction ts generalizing seq with
  | nil =>
    intro c hc
    cases hc
  | cons t ts ih =>
    intro c hc
    rcases List.mem_cons.1 hc with h | h
    · rw [h]
      rfl
    · exact ih (seq + 1) c h

/-- C1: for an ACTIVE session and any sequence of update calls each accepted by
the throttle (spaced beyond the window) whose network requests all succeed, the
session issues exactly one content-update per call, carrying the texts in exact
invocation order with strictly increasing (consecutive) sequence values. The
serialized promise queue runs queued units in enqueue order, which the
embedding reflects. -/
theorem claim_C1_ordering (s : Session) (st : CardState) (us : List UpdateCall)
    (hst : s.state = some st) (hcl : s.closed = false)
    (hok : ∀ u ∈ us, u.netOk = true)
    (hchain : acceptedChainB s.lastUpdateTime s.updateThrottleMs
      (us.map (fun u => u.now)) = true) :
    (s.runUpdates us).2.1.length = us.length ∧
    (s.runUpdates us).2.1.map netText = us.map (fun u => u.text) ∧
    (s.runUpdates us).2.1.map netSeq = List.range' (st.sequence + 1) us.length ∧
    ((s.runUpdates us).2.1.map netSeq).Pairwise (· < ·) ∧
    (∀ c ∈ (s.runUpdates us).2.1, netIsContent c = true) := by
  have h := runUpdates_ok us s st hst hcl hok hchain
  rw [h]
  refine ⟨?_, expectedTrace_map_netText st.cardId st.sequence (us.map (fun u => u.text)), ?_, ?_,
    expectedTrace_content st.cardId st.sequence (us.map (fun u => u.text))⟩
  · rw [expectedTrace_length, List.length_map]
  · rw [expectedTrace_map_netSeq, List.length_map]
  · rw [expectedTrace_map_netSeq, List.length_map]
    exact List.pairwise_lt_range' (st.sequence + 1) us.length

/-- Witness for C1: three successful updates at t = 100, 200, 300 on a fresh
active session. -/
theorem claim_C1_ordering_witness :
    ((activeSession "c" "m").runUpdates
        [⟨"t1", 100, true⟩, ⟨"t2", 200, true⟩, ⟨"t3", 300, true⟩]).2.1.length = 3 ∧
    ((activeSession "c" "m").runUpdates
        [⟨"t1", 100, true⟩, ⟨"t2", 200, true⟩, ⟨"t3", 300, true⟩]).2.1.map netText =
      ["t1", "t2", "t3"] ∧
    ((activeSession "c" "m").runUpdates
        [⟨"t1", 100, true⟩, ⟨"t2", 200, true⟩, ⟨"t3", 300, true⟩]).2.1.map netSeq =
      List.range' 2 3 ∧
    (((activeSession "c" "m").runUpdates
        [⟨"t1", 100, true⟩, ⟨"t2", 200, true⟩, ⟨"t3", 300, true⟩]).2.1.map netSeq).Pairwise
      (· < ·) ∧
    (∀ c ∈ ((activeSession "c" "m").runUpdates
        [⟨"t1", 100, true⟩, ⟨"t2", 200, true⟩, ⟨"t3", 300, true⟩]).2.1,
      netIsContent c = true) := by
  have h := claim_C1_ordering (activeSession "c" "m") ⟨"c", "m", 1, ""⟩
    [⟨"t1", 100, true⟩, ⟨"t2", 200, true⟩, ⟨"t3", 300, true⟩]
    (by decide) (by decide) (by decide) (by decide)
  exact ⟨h.1, by simpa using h.2.1, h.2.2.1, h.2.2.2.1, h.2.2.2.2⟩

end OpenClaw
